import Mathlib

/-!
Verification of `portal/env_manager.py`: per-agent virtual-environment
provisioning (`ensure_env`) and command execution (`run`).

The filesystem is modelled as the finite set of paths that exist (a path
is its list of components).  External effects — virtual-environment
creation, the `pip install` subprocess, and the final agent-process spawn —
are recorded as an event trace; the outcome of each external process is
supplied by oracles in a `Config` (exit codes, venv-creation success), so
that both success and failure behaviours of the Python code are captured.
Exceptions do not roll back filesystem effects, so each operation returns
its final filesystem together with an `Except` outcome, exactly as the
Python code leaves the disk when `subprocess.check_call` raises.
-/

namespace EnvManager

/-- A filesystem path, as its list of components (all paths absolute). -/
abbrev Path := List String

/-- Rendering of a path as Python's `str(path)` produces. -/
def pathToString (p : Path) : String := "/" ++ String.intercalate "/" p

/-- The filesystem: the set of paths that currently exist on disk. -/
structure FS where
  existing : List Path
deriving DecidableEq

/-- Model of `path.exists()` in Python. -/
def FS.pathExists (fs : FS) (p : Path) : Bool := decide (p ∈ fs.existing)

/-- Creation of a single filesystem entry (`venv.create` target, `marker.touch()`). -/
def FS.create (fs : FS) (p : Path) : FS := ⟨p :: fs.existing⟩

/-- Model of `p.mkdir(parents=True, exist_ok=True)`: `p` and every missing ancestor
of `p` come to exist (ancestors of `p` are exactly its list prefixes). -/
def FS.mkdirParents (fs : FS) (p : Path) : FS := ⟨p.inits ++ fs.existing⟩

/-- Creation of a batch of filesystem entries at once. -/
def FS.createAll (fs : FS) (ps : List Path) : FS := ⟨ps ++ fs.existing⟩

/-- External-process events, in invocation order:
`venv.create`, the `pip install` subprocess of `ensure_env`
(recorded with interpreter and requirements file as rendered strings),
and the agent-command spawn of `run` (argument vector and working directory). -/
inductive Event where
  | venvCreate (envDir : Path)
  | pipInstall (python : String) (req : String)
  | spawn (argv : List String) (cwd : Path)
deriving DecidableEq

/-- The error taxonomy of the spec: `venv.create` failure, non-zero exit of
the pip subprocess (`subprocess.check_call`), and non-zero exit of the agent
process (`subprocess.run(..., check=True)`, which carries the exit code). -/
inductive Err where
  | environmentCreationError
  | dependencyInstallError
  | processExecutionError (returncode : Nat)
deriving DecidableEq

/-- Environment oracles for one call: platform (`os.name == "nt"`), the
user's home directory, whether `venv.create` succeeds, the exit code of the
pip subprocess, and the exit code of the spawned agent process.
`venvTree` is the layout `venv.create` writes inside the new environment
root, as paths relative to it (e.g. `pyvenv.cfg`, `bin`, `bin/python`);
it is external data, so it is an oracle rather than a fixed list.  The one
fact about it the embedding relies on is `markerNotCreated`: `venv.create`
writes the standard virtual-environment layout and never a file named
`.requirements_installed` — that marker is written exclusively by
`ensure_env` itself (the spec calls its existence the sole signal that
dependency installation has completed). -/
structure Config where
  isWindows : Bool
  home : Path
  venvOk : Bool
  installExit : Nat
  agentExit : Nat
  venvTree : List Path
  markerNotCreated : [".requirements_installed"] ∉ venvTree

/-- Model of `_python_executable`: `env_path / "Scripts" / "python.exe"` when
`os.name == "nt"`, else `env_path / "bin" / "python"`. -/
def pythonExecutable (isWindows : Bool) (env_path : Path) : Path :=
  if isWindows then env_path ++ ["Scripts", "python.exe"]
  else env_path ++ ["bin", "python"]

/-- The path `Path.home() / ".agents" / agent_name`. -/
def envDir (cfg : Config) (agent_name : String) : Path :=
  cfg.home ++ [".agents", agent_name]

/-- The path `env_dir / ".requirements_installed"`. -/
def markerOf (cfg : Config) (agent_name : String) : Path :=
  envDir cfg agent_name ++ [".requirements_installed"]

/-- Decidable equality for `Except` outcomes. -/
def exceptDecEq {ε α : Type} [DecidableEq ε] [DecidableEq α] :
    (a b : Except ε α) → Decidable (a = b)
  | .ok a, .ok b =>
    if h : a = b then .isTrue (by rw [h])
    else .isFalse (fun hc => h (by injection hc))
  | .error e, .error f =>
    if h : e = f then .isTrue (by rw [h])
    else .isFalse (fun hc => h (by injection hc))
  | .ok _, .error _ => .isFalse (fun hc => Except.noConfusion hc)
  | .error _, .ok _ => .isFalse (fun hc => Except.noConfusion hc)

instance {ε α : Type} [DecidableEq ε] [DecidableEq α] :
    DecidableEq (Except ε α) := exceptDecEq

/-- Result of one `ensure_env` call: the filesystem it leaves behind, the
external-process events it performed, and its outcome (the returned
environment path, or the exception it raised). -/
structure EnsureOut where
  fs : FS
  events : List Event
  result : Except Err Path
deriving DecidableEq

/-- Lines 31-41 of `env_manager.py`: if a requirements path was given, it
exists, and the marker does not exist, run `pip install -r requirements`
with the environment's interpreter; on success touch the marker, on
non-zero exit raise (marker not written).  Otherwise skip.  Returns
`env_dir`. -/
def installStep (cfg : Config) (env_dir : Path) (requirements : Option Path)
    (fs : FS) (evs : List Event) : EnsureOut :=
  let marker := env_dir ++ [".requirements_installed"]
  match requirements with
  | none => { fs := fs, events := evs, result := .ok env_dir }
  | some req =>
    if fs.pathExists req && !fs.pathExists marker then
      let ev := Event.pipInstall
        (pathToString (pythonExecutable cfg.isWindows env_dir)) (pathToString req)
      if cfg.installExit = 0 then
        { fs := fs.create marker, events := evs ++ [ev], result := .ok env_dir }
      else
        { fs := fs, events := evs ++ [ev], result := .error .dependencyInstallError }
    else { fs := fs, events := evs, result := .ok env_dir }

/-- Filesystem effect of the creation branch of `ensure_env`:
`env_dir.parent.mkdir(parents=True, exist_ok=True)` followed by
`venv.create(env_dir, with_pip=True)`, which creates the environment root
and its interior layout (`cfg.venvTree`, each entry relative to the
root). -/
def envCreateFS (cfg : Config) (agent_name : String) (fs : FS) : FS :=
  ((fs.mkdirParents (cfg.home ++ [".agents"])).create (envDir cfg agent_name)).createAll
    (cfg.venvTree.map (fun rel => envDir cfg agent_name ++ rel))

/-- Model of `ensure_env(agent_name, requirements)`: compute
`env_dir = home/.agents/<agent_name>`; if it does not exist, create its
parent directories and create the virtual environment there, interior
layout included (failure of `venv.create` raises, after the `mkdir`
effect); then perform the one-time dependency install guarded by the
marker file. -/
def ensure_env (cfg : Config) (agent_name : String) (requirements : Option Path)
    (fs : FS) : EnsureOut :=
  let env_dir := envDir cfg agent_name
  if fs.pathExists env_dir then
    installStep cfg env_dir requirements fs []
  else
    if cfg.venvOk then
      installStep cfg env_dir requirements (envCreateFS cfg agent_name fs)
        [Event.venvCreate env_dir]
    else
      { fs := fs.mkdirParents (cfg.home ++ [".agents"]), events := [],
        result := .error .environmentCreationError }

/-- A value passed as (or inside) the `command` argument of `run`: a Python
`str` or a `Path`; `str(c)` renders either as text. -/
inductive PyValue where
  | vstr (s : String)
  | vpath (p : Path)
deriving DecidableEq

/-- Python `str(c)`. -/
def PyValue.toText : PyValue → String
  | .vstr s => s
  | .vpath p => pathToString p

/-- The `command` argument of `run` when present: a single `str`/`Path`
token (caught by the `isinstance(command, (str, Path))` branch), or a
sequence of tokens. -/
inductive PyCommand where
  | scalar (v : PyValue)
  | tokens (ts : List PyValue)
deriving DecidableEq

/-- Lines 62-67 of `env_manager.py`: the argument vector after the
interpreter.  `None` ↦ `[str(agent_dir / "main.py")]`; a single `str` or
`Path` ↦ that one token rendered; a sequence ↦ `[str(c) for c in command]`. -/
def buildCmd (agent_dir : Path) : Option PyCommand → List String
  | none => [pathToString (agent_dir ++ ["main.py"])]
  | some (.scalar v) => [v.toText]
  | some (.tokens ts) => ts.map PyValue.toText

/-- Model of `subprocess.CompletedProcess`: argument vector and exit code. -/
structure CompletedProcess where
  args : List String
  returncode : Nat
deriving DecidableEq

/-- Result of one `run` call. -/
structure RunOut where
  fs : FS
  events : List Event
  result : Except Err CompletedProcess
deriving DecidableEq

/-- Model of `Path(...).name`: the final path component (empty for the root path). -/
def lastName (p : Path) : String := p.getLast?.getD ""

/-- Model of `run(agent_path, command)`: resolve the agent directory (modelled as an
already-absolute path), derive the agent name as its last component, call
`ensure_env(agent_name, agent_dir / "requirements.txt")` (its exception, if
any, propagates unchanged), then spawn the environment's interpreter with
the built argument vector, working directory `agent_dir`, raising
`processExecutionError` on non-zero exit (`check=True`). -/
def run (cfg : Config) (agent_path : Path) (command : Option PyCommand)
    (fs : FS) : RunOut :=
  let agent_dir := agent_path
  let agent_name := lastName agent_dir
  let eo := ensure_env cfg agent_name (some (agent_dir ++ ["requirements.txt"])) fs
  match eo.result with
  | .error e => { fs := eo.fs, events := eo.events, result := .error e }
  | .ok env_dir =>
    let env_python := pythonExecutable cfg.isWindows env_dir
    let full_cmd := pathToString env_python :: buildCmd agent_dir command
    let ev := Event.spawn full_cmd agent_dir
    if cfg.agentExit = 0 then
      { fs := eo.fs, events := eo.events ++ [ev],
        result := .ok ⟨full_cmd, 0⟩ }
    else
      { fs := eo.fs, events := eo.events ++ [ev],
        result := .error (.processExecutionError cfg.agentExit) }

/-- Is an event a pip-install subprocess invocation? -/
def isInstallEvent : Event → Bool
  | .pipInstall _ _ => true
  | _ => false

/-- Is an event a `venv.create` invocation? -/
def isCreateEvent : Event → Bool
  | .venvCreate _ => true
  | _ => false

/-- Is an event an agent-process spawn? -/
def isSpawnEvent : Event → Bool
  | .spawn _ _ => true
  | _ => false

/-- Number of installer invocations in a trace. -/
def countInstalls (evs : List Event) : Nat := (evs.filter isInstallEvent).length

/-- Number of environment-creation invocations in a trace. -/
def countCreates (evs : List Event) : Nat := (evs.filter isCreateEvent).length

/-- Interior layout written by `venv.create` on a POSIX platform, for
concrete instantiations: configuration file, `bin` directory, interpreter. -/
def stdVenvTree : List Path := [["pyvenv.cfg"], ["bin"], ["bin", "python"]]

/-- Concrete POSIX configuration: environment creation succeeds, the
installer exits 0, the agent process exits 0. -/
def cfgOk : Config := ⟨false, ["home"], true, 0, 0, stdVenvTree, by decide⟩

/-- Like `cfgOk`, but the installer subprocess exits 1. -/
def cfgPipFail : Config := ⟨false, ["home"], true, 1, 0, stdVenvTree, by decide⟩

/-- Like `cfgOk`, but the spawned agent process exits 7. -/
def cfgAgentFail : Config := ⟨false, ["home"], true, 0, 7, stdVenvTree, by decide⟩

/-! ### Filesystem lemmas -/

theorem pathExists_create_iff (fs : FS) (p q : Path) :
    (fs.create q).pathExists p = true ↔ p = q ∨ fs.pathExists p = true := by
  simp [FS.create, FS.pathExists]

theorem pathExists_create_self (fs : FS) (p : Path) :
    (fs.create p).pathExists p = true := by
  simp [FS.create, FS.pathExists]

theorem pathExists_mono_create (fs : FS) (p q : Path)
    (h : fs.pathExists p = true) : (fs.create q).pathExists p = true := by
  exact (pathExists_create_iff fs p q).mpr (Or.inr h)

theorem pathExists_create_of_ne (fs : FS) (p q : Path) (h : p ≠ q) :
    (fs.create q).pathExists p = fs.pathExists p := by
  simp [FS.create, FS.pathExists, h]

theorem pathExists_mkdirParents_iff (fs : FS) (p q : Path) :
    (fs.mkdirParents q).pathExists p = true ↔
      p ∈ q.inits ∨ fs.pathExists p = true := by
  simp [FS.mkdirParents, FS.pathExists]

theorem pathExists_mono_mkdirParents (fs : FS) (p q : Path)
    (h : fs.pathExists p = true) : (fs.mkdirParents q).pathExists p = true :=
  (pathExists_mkdirParents_iff fs p q).mpr (Or.inr h)

theorem pathExists_mkdirParents_of_not_mem (fs : FS) (p q : Path)
    (h : p ∉ q.inits) : (fs.mkdirParents q).pathExists p = fs.pathExists p := by
  simp only [FS.mkdirParents, FS.pathExists, List.mem_append]
  simp [h]

theorem pathExists_mkdirParents_of_long (fs : FS) (p q : Path)
    (h : q.length < p.length) :
    (fs.mkdirParents q).pathExists p = fs.pathExists p := by
  refine pathExists_mkdirParents_of_not_mem fs p q (fun hmem => ?_)
  have hpre : p <+: q := (List.mem_inits _ _).mp hmem
  exact absurd hpre.length_le (by omega)

theorem length_envDir (cfg : Config) (n : String) :
    (envDir cfg n).length = cfg.home.length + 2 := by
  simp [envDir]

theorem length_markerOf (cfg : Config) (n : String) :
    (markerOf cfg n).length = cfg.home.length + 3 := by
  simp [markerOf, envDir]

theorem marker_ne_envDir (cfg : Config) (n : String) :
    markerOf cfg n ≠ envDir cfg n := by
  intro h
  have := congrArg List.length h
  rw [length_markerOf, length_envDir] at this
  omega

theorem pathExists_createAll_iff (fs : FS) (p : Path) (ps : List Path) :
    (fs.createAll ps).pathExists p = true ↔ p ∈ ps ∨ fs.pathExists p = true := by
  simp [FS.createAll, FS.pathExists]

theorem pathExists_mono_createAll (fs : FS) (p : Path) (ps : List Path)
    (h : fs.pathExists p = true) : (fs.createAll ps).pathExists p = true :=
  (pathExists_createAll_iff fs p ps).mpr (Or.inr h)

theorem pathExists_createAll_of_not_mem (fs : FS) (p : Path) (ps : List Path)
    (h : p ∉ ps) : (fs.createAll ps).pathExists p = fs.pathExists p := by
  simp only [FS.createAll, FS.pathExists, List.mem_append]
  simp [h]

/-- The environment directory exists after the creation branch. -/
theorem pathExists_envCreateFS_self (cfg : Config) (n : String) (fs : FS) :
    (envCreateFS cfg n fs).pathExists (envDir cfg n) = true := by
  unfold envCreateFS
  exact pathExists_mono_createAll _ _ _ (pathExists_create_self _ _)

/-- The creation branch is monotone: it deletes nothing. -/
theorem pathExists_mono_envCreateFS (cfg : Config) (n : String) (fs : FS)
    (p : Path) (h : fs.pathExists p = true) :
    (envCreateFS cfg n fs).pathExists p = true := by
  unfold envCreateFS
  exact pathExists_mono_createAll _ _ _
    (pathExists_mono_create _ _ _ (pathExists_mono_mkdirParents fs p _ h))

/-- A path that is neither an ancestor created by the parent `mkdir` nor
lies inside the environment directory (the directory itself included) is
untouched by the creation branch — `venv.create` writes only the
environment root and entries inside it, and the `mkdir` only ancestors of
`home/.agents`. -/
theorem pathExists_envCreateFS_outside (cfg : Config) (n : String) (fs : FS)
    (p : Path) (hni : p ∉ (cfg.home ++ [".agents"]).inits)
    (hpre : (envDir cfg n).isPrefixOf p = false) :
    (envCreateFS cfg n fs).pathExists p = fs.pathExists p := by
  have hnotpre : ¬ (envDir cfg n <+: p) := by
    intro hc
    have h1 : (envDir cfg n).isPrefixOf p = true := List.isPrefixOf_iff_prefix.mpr hc
    rw [hpre] at h1
    cases h1
  have hne : p ≠ envDir cfg n := by
    intro h
    exact hnotpre (by rw [h])
  have hnmem : p ∉ cfg.venvTree.map (fun rel => envDir cfg n ++ rel) := by
    intro hmem
    obtain ⟨rel, _, hrel⟩ := List.mem_map.mp hmem
    exact hnotpre (hrel ▸ List.prefix_append (envDir cfg n) rel)
  unfold envCreateFS
  rw [pathExists_createAll_of_not_mem _ _ _ hnmem,
    pathExists_create_of_ne _ _ _ hne,
    pathExists_mkdirParents_of_not_mem fs p _ hni]

/-- The creation branch never creates the marker file: `venv.create` writes
the standard layout only (`Config.markerNotCreated`). -/
theorem marker_pathExists_envCreateFS (cfg : Config) (n : String) (fs : FS) :
    (envCreateFS cfg n fs).pathExists (markerOf cfg n)
      = fs.pathExists (markerOf cfg n) := by
  have hnmem : markerOf cfg n ∉ cfg.venvTree.map (fun rel => envDir cfg n ++ rel) := by
    intro hmem
    obtain ⟨rel, hrelmem, hrel⟩ := List.mem_map.mp hmem
    have hrel' : rel = [".requirements_installed"] :=
      List.append_cancel_left (hrel.trans (rfl : markerOf cfg n
        = envDir cfg n ++ [".requirements_installed"]))
    exact cfg.markerNotCreated (hrel' ▸ hrelmem)
  unfold envCreateFS
  rw [pathExists_createAll_of_not_mem _ _ _ hnmem,
    pathExists_create_of_ne _ _ _ (marker_ne_envDir cfg n),
    pathExists_mkdirParents_of_long _ _ _ (by rw [length_markerOf]; simp)]

/-! ### Branch characterizations of `installStep` and `ensure_env` -/

theorem installStep_none (cfg : Config) (ed : Path) (fs : FS) (evs : List Event) :
    installStep cfg ed none fs evs = { fs := fs, events := evs, result := .ok ed } := rfl

theorem installStep_skip (cfg : Config) (ed req : Path) (fs : FS) (evs : List Event)
    (h : (fs.pathExists req && !fs.pathExists (ed ++ [".requirements_installed"])) = false) :
    installStep cfg ed (some req) fs evs = { fs := fs, events := evs, result := .ok ed } := by
  unfold installStep
  simp [h]

theorem installStep_success (cfg : Config) (ed req : Path) (fs : FS) (evs : List Event)
    (h : (fs.pathExists req && !fs.pathExists (ed ++ [".requirements_installed"])) = true)
    (hi : cfg.installExit = 0) :
    installStep cfg ed (some req) fs evs =
      { fs := fs.create (ed ++ [".requirements_installed"]),
        events := evs ++ [Event.pipInstall
          (pathToString (pythonExecutable cfg.isWindows ed)) (pathToString req)],
        result := .ok ed } := by
  unfold installStep
  simp [h, hi]

theorem installStep_failure (cfg : Config) (ed req : Path) (fs : FS) (evs : List Event)
    (h : (fs.pathExists req && !fs.pathExists (ed ++ [".requirements_installed"])) = true)
    (hi : cfg.installExit ≠ 0) :
    installStep cfg ed (some req) fs evs =
      { fs := fs,
        events := evs ++ [Event.pipInstall
          (pathToString (pythonExecutable cfg.isWindows ed)) (pathToString req)],
        result := .error .dependencyInstallError } := by
  unfold installStep
  simp [h, hi]

theorem ensure_env_of_exists (cfg : Config) (n : String) (r : Option Path) (fs : FS)
    (h : fs.pathExists (envDir cfg n) = true) :
    ensure_env cfg n r fs = installStep cfg (envDir cfg n) r fs [] := by
  unfold ensure_env
  simp [h]

theorem ensure_env_of_missing (cfg : Config) (n : String) (r : Option Path) (fs : FS)
    (h : fs.pathExists (envDir cfg n) = false) (hv : cfg.venvOk = true) :
    ensure_env cfg n r fs =
      installStep cfg (envDir cfg n) r (envCreateFS cfg n fs)
        [Event.venvCreate (envDir cfg n)] := by
  unfold ensure_env
  simp [h, hv]

theorem ensure_env_of_venv_failure (cfg : Config) (n : String) (r : Option Path) (fs : FS)
    (h : fs.pathExists (envDir cfg n) = false) (hv : cfg.venvOk = false) :
    ensure_env cfg n r fs =
      { fs := fs.mkdirParents (cfg.home ++ [".agents"]), events := [],
        result := .error .environmentCreationError } := by
  unfold ensure_env
  simp [h, hv]

/-! ### Structural consequences -/

theorem installStep_result_of_exit0 (cfg : Config) (ed : Path) (r : Option Path)
    (fs : FS) (evs : List Event) (hi : cfg.installExit = 0) :
    (installStep cfg ed r fs evs).result = .ok ed := by
  cases r with
  | none => rw [installStep_none]
  | some req =>
    by_cases h : (fs.pathExists req && !fs.pathExists (ed ++ [".requirements_installed"])) = true
    · rw [installStep_success cfg ed req fs evs h hi]
    · rw [installStep_skip cfg ed req fs evs (by simpa using h)]

theorem ensure_env_result_ok (cfg : Config) (n : String) (r : Option Path) (fs : FS)
    (hv : cfg.venvOk = true) (hi : cfg.installExit = 0) :
    (ensure_env cfg n r fs).result = .ok (envDir cfg n) := by
  by_cases h : fs.pathExists (envDir cfg n) = true
  · rw [ensure_env_of_exists cfg n r fs h]
    exact installStep_result_of_exit0 cfg _ r fs [] hi
  · rw [ensure_env_of_missing cfg n r fs (by simpa using h) hv]
    exact installStep_result_of_exit0 cfg _ r _ _ hi

theorem installStep_fs_mono (cfg : Config) (ed : Path) (r : Option Path)
    (fs : FS) (evs : List Event) (p : Path) (h : fs.pathExists p = true) :
    (installStep cfg ed r fs evs).fs.pathExists p = true := by
  cases r with
  | none => rw [installStep_none]; exact h
  | some req =>
    by_cases hc : (fs.pathExists req && !fs.pathExists (ed ++ [".requirements_installed"])) = true
    · by_cases hi : cfg.installExit = 0
      · rw [installStep_success cfg ed req fs evs hc hi]
        exact pathExists_mono_create fs p _ h
      · rw [installStep_failure cfg ed req fs evs hc hi]; exact h
    · rw [installStep_skip cfg ed req fs evs (by simpa using hc)]; exact h

theorem ensure_env_fs_mono (cfg : Config) (n : String) (r : Option Path)
    (fs : FS) (p : Path) (h : fs.pathExists p = true) :
    (ensure_env cfg n r fs).fs.pathExists p = true := by
  by_cases he : fs.pathExists (envDir cfg n) = true
  · rw [ensure_env_of_exists cfg n r fs he]
    exact installStep_fs_mono cfg _ r fs [] p h
  · by_cases hv : cfg.venvOk = true
    · rw [ensure_env_of_missing cfg n r fs (by simpa using he) hv]
      exact installStep_fs_mono cfg _ r _ _ p
        (pathExists_mono_envCreateFS cfg n fs p h)
    · rw [ensure_env_of_venv_failure cfg n r fs (by simpa using he) (by simpa using hv)]
      exact pathExists_mono_mkdirParents fs p _ h

theorem ensure_env_envDir_exists (cfg : Config) (n : String) (r : Option Path)
    (fs : FS) (hv : cfg.venvOk = true) :
    (ensure_env cfg n r fs).fs.pathExists (envDir cfg n) = true := by
  by_cases he : fs.pathExists (envDir cfg n) = true
  · exact ensure_env_fs_mono cfg n r fs _ he
  · rw [ensure_env_of_missing cfg n r fs (by simpa using he) hv]
    exact installStep_fs_mono cfg _ r _ _ _ (pathExists_envCreateFS_self cfg n fs)

theorem installStep_events_filter (cfg : Config) (ed : Path) (r : Option Path)
    (fs : FS) (evs : List Event) (q : Event → Bool)
    (hq : ∀ py req, q (Event.pipInstall py req) = false) :
    (installStep cfg ed r fs evs).events.filter q = evs.filter q := by
  cases r with
  | none => rw [installStep_none]
  | some req =>
    by_cases hc : (fs.pathExists req && !fs.pathExists (ed ++ [".requirements_installed"])) = true
    · by_cases hi : cfg.installExit = 0
      · rw [installStep_success cfg ed req fs evs hc hi]
        simp [List.filter_append, hq]
      · rw [installStep_failure cfg ed req fs evs hc hi]
        simp [List.filter_append, hq]
    · rw [installStep_skip cfg ed req fs evs (by simpa using hc)]

theorem ensure_env_events_filter (cfg : Config) (n : String) (r : Option Path)
    (fs : FS) (q : Event → Bool)
    (hq : ∀ py req, q (Event.pipInstall py req) = false)
    (hq2 : ∀ ed, q (Event.venvCreate ed) = false) :
    (ensure_env cfg n r fs).events.filter q = [] := by
  by_cases he : fs.pathExists (envDir cfg n) = true
  · rw [ensure_env_of_exists cfg n r fs he, installStep_events_filter cfg _ r fs [] q hq]
    rfl
  · by_cases hv : cfg.venvOk = true
    · rw [ensure_env_of_missing cfg n r fs (by simpa using he) hv,
        installStep_events_filter cfg _ r _ _ q hq]
      simp [hq2]
    · rw [ensure_env_of_venv_failure cfg n r fs (by simpa using he) (by simpa using hv)]
      rfl

theorem envDir_congr (cfg cfg' : Config) (n : String) (h : cfg'.home = cfg.home) :
    envDir cfg' n = envDir cfg n := by
  simp [envDir, h]

theorem markerOf_congr (cfg cfg' : Config) (n : String) (h : cfg'.home = cfg.home) :
    markerOf cfg' n = markerOf cfg n := by
  simp [markerOf, envDir, h]

/-- When the manifest exists and the marker is absent, `ensure_env` records
exactly one pip-install invocation, whatever the installer's exit code
(provided environment creation does not itself fail first). -/
theorem ensure_env_attempts_install (cfg : Config) (n : String) (m : Path) (fs : FS)
    (hm : fs.pathExists m = true)
    (hmark : fs.pathExists (markerOf cfg n) = false)
    (hv : cfg.venvOk = true ∨ fs.pathExists (envDir cfg n) = true) :
    countInstalls (ensure_env cfg n (some m) fs).events = 1 := by
  have hmark' : fs.pathExists (envDir cfg n ++ [".requirements_installed"]) = false := hmark
  by_cases he : fs.pathExists (envDir cfg n) = true
  · have hcond : (fs.pathExists m
        && !fs.pathExists (envDir cfg n ++ [".requirements_installed"])) = true := by
      rw [hm, hmark']; rfl
    rw [ensure_env_of_exists cfg n _ fs he]
    by_cases hi : cfg.installExit = 0
    · rw [installStep_success cfg _ m fs [] hcond hi]
      simp [countInstalls, isInstallEvent]
    · rw [installStep_failure cfg _ m fs [] hcond hi]
      simp [countInstalls, isInstallEvent]
  · have hv' : cfg.venvOk = true := hv.resolve_right he
    rw [ensure_env_of_missing cfg n _ fs (by simpa using he) hv']
    have hm1 : (envCreateFS cfg n fs).pathExists m = true :=
      pathExists_mono_envCreateFS cfg n fs m hm
    have hmark1 : (envCreateFS cfg n fs).pathExists
        (envDir cfg n ++ [".requirements_installed"]) = false := by
      rw [show envDir cfg n ++ [".requirements_installed"] = markerOf cfg n from rfl,
        marker_pathExists_envCreateFS cfg n fs]
      exact hmark
    have hcond : ((envCreateFS cfg n fs).pathExists m
        && !(envCreateFS cfg n fs).pathExists
          (envDir cfg n ++ [".requirements_installed"])) = true := by
      rw [hm1, hmark1]; rfl
    by_cases hi : cfg.installExit = 0
    · rw [installStep_success cfg _ m _ _ hcond hi]
      simp [countInstalls, isInstallEvent]
    · rw [installStep_failure cfg _ m _ _ hcond hi]
      simp [countInstalls, isInstallEvent]

/-- When the marker file is already present, `ensure_env` performs no
installer invocation at all. -/
theorem ensure_env_skip_of_marker (cfg : Config) (n : String) (m : Path) (fs : FS)
    (hmark : fs.pathExists (markerOf cfg n) = true) :
    countInstalls (ensure_env cfg n (some m) fs).events = 0 := by
  by_cases he : fs.pathExists (envDir cfg n) = true
  · have hcond : (fs.pathExists m
        && !fs.pathExists (envDir cfg n ++ [".requirements_installed"])) = false := by
      rw [show envDir cfg n ++ [".requirements_installed"] = markerOf cfg n from rfl, hmark]
      simp
    rw [ensure_env_of_exists cfg n _ fs he, installStep_skip cfg _ m fs [] hcond]
    rfl
  · by_cases hv : cfg.venvOk = true
    · rw [ensure_env_of_missing cfg n _ fs (by simpa using he) hv]
      have hmark1 : (envCreateFS cfg n fs).pathExists
          (envDir cfg n ++ [".requirements_installed"]) = true := by
        rw [show envDir cfg n ++ [".requirements_installed"] = markerOf cfg n from rfl]
        exact pathExists_mono_envCreateFS cfg n fs _ hmark
      have hcond : ((envCreateFS cfg n fs).pathExists m
          && !(envCreateFS cfg n fs).pathExists
            (envDir cfg n ++ [".requirements_installed"])) = false := by
        rw [hmark1]; simp
      rw [installStep_skip cfg _ m _ _ hcond]
      simp [countInstalls, isInstallEvent]
    · rw [ensure_env_of_venv_failure cfg n _ fs (by simpa using he) (by simpa using hv)]
      rfl

/-- Successful first install: the marker exists afterwards and the
environment path is returned. -/
theorem ensure_env_install_success_effects (cfg : Config) (n : String) (m : Path)
    (fs : FS)
    (hm : fs.pathExists m = true)
    (hmark : fs.pathExists (markerOf cfg n) = false)
    (hv : cfg.venvOk = true) (hi : cfg.installExit = 0) :
    (ensure_env cfg n (some m) fs).fs.pathExists (markerOf cfg n) = true ∧
    (ensure_env cfg n (some m) fs).result = .ok (envDir cfg n) := by
  have hmark' : fs.pathExists (envDir cfg n ++ [".requirements_installed"]) = false := hmark
  by_cases he : fs.pathExists (envDir cfg n) = true
  · have hcond : (fs.pathExists m
        && !fs.pathExists (envDir cfg n ++ [".requirements_installed"])) = true := by
      rw [hm, hmark']; rfl
    rw [ensure_env_of_exists cfg n _ fs he, installStep_success cfg _ m fs [] hcond hi]
    exact ⟨pathExists_create_self _ _, rfl⟩
  · rw [ensure_env_of_missing cfg n _ fs (by simpa using he) hv]
    have hm1 : (envCreateFS cfg n fs).pathExists m = true :=
      pathExists_mono_envCreateFS cfg n fs m hm
    have hmark1 : (envCreateFS cfg n fs).pathExists
        (envDir cfg n ++ [".requirements_installed"]) = false := by
      rw [show envDir cfg n ++ [".requirements_installed"] = markerOf cfg n from rfl,
        marker_pathExists_envCreateFS cfg n fs]
      exact hmark
    have hcond : ((envCreateFS cfg n fs).pathExists m
        && !(envCreateFS cfg n fs).pathExists
          (envDir cfg n ++ [".requirements_installed"])) = true := by
      rw [hm1, hmark1]; rfl
    rw [installStep_success cfg _ m _ _ hcond hi]
    exact ⟨pathExists_create_self _ _, rfl⟩

/-- Failed install: `dependencyInstallError` is raised, the marker is not
written, and the manifest and environment directory still exist, so the
next call finds the install precondition intact. -/
theorem ensure_env_install_failure_effects (cfg : Config) (n : String) (m : Path)
    (fs : FS)
    (hm : fs.pathExists m = true)
    (hmark : fs.pathExists (markerOf cfg n) = false)
    (hv : cfg.venvOk = true) (hi : cfg.installExit ≠ 0) :
    (ensure_env cfg n (some m) fs).result = .error .dependencyInstallError ∧
    (ensure_env cfg n (some m) fs).fs.pathExists (markerOf cfg n) = false ∧
    (ensure_env cfg n (some m) fs).fs.pathExists m = true ∧
    (ensure_env cfg n (some m) fs).fs.pathExists (envDir cfg n) = true := by
  have hmark' : fs.pathExists (envDir cfg n ++ [".requirements_installed"]) = false := hmark
  by_cases he : fs.pathExists (envDir cfg n) = true
  · have hcond : (fs.pathExists m
        && !fs.pathExists (envDir cfg n ++ [".requirements_installed"])) = true := by
      rw [hm, hmark']; rfl
    rw [ensure_env_of_exists cfg n _ fs he, installStep_failure cfg _ m fs [] hcond hi]
    exact ⟨rfl, hmark, hm, he⟩
  · rw [ensure_env_of_missing cfg n _ fs (by simpa using he) hv]
    have hm1 : (envCreateFS cfg n fs).pathExists m = true :=
      pathExists_mono_envCreateFS cfg n fs m hm
    have hmark1 : (envCreateFS cfg n fs).pathExists
        (envDir cfg n ++ [".requirements_installed"]) = false := by
      rw [show envDir cfg n ++ [".requirements_installed"] = markerOf cfg n from rfl,
        marker_pathExists_envCreateFS cfg n fs]
      exact hmark
    have hcond : ((envCreateFS cfg n fs).pathExists m
        && !(envCreateFS cfg n fs).pathExists
          (envDir cfg n ++ [".requirements_installed"])) = true := by
      rw [hm1, hmark1]; rfl
    rw [installStep_failure cfg _ m _ _ hcond hi]
    exact ⟨rfl, hmark1, hm1, pathExists_envCreateFS_self cfg n fs⟩

/-! ### Claim theorems -/

/-- C1: for every agent name `n` and manifest path `m` existing on disk, the
first `ensure(n, m)` call with the marker absent invokes the package
installer exactly once, creates the marker file
`~/.agents/<n>/.requirements_installed`, and returns the environment path;
a subsequent `ensure(n, m)` call, with the marker now present, invokes the
installer zero times. -/
theorem ensure_first_installs_once_then_zero (cfg cfg' : Config) (n : String)
    (m : Path) (fs : FS)
    (hm : fs.pathExists m = true)
    (hmark : fs.pathExists (markerOf cfg n) = false)
    (hv : cfg.venvOk = true) (hi : cfg.installExit = 0)
    (hhome : cfg'.home = cfg.home) :
    countInstalls (ensure_env cfg n (some m) fs).events = 1 ∧
    (ensure_env cfg n (some m) fs).fs.pathExists (markerOf cfg n) = true ∧
    (ensure_env cfg n (some m) fs).result = .ok (envDir cfg n) ∧
    countInstalls
      (ensure_env cfg' n (some m) (ensure_env cfg n (some m) fs).fs).events = 0 := by
  obtain ⟨h1, h2⟩ := ensure_env_install_success_effects cfg n m fs hm hmark hv hi
  refine ⟨ensure_env_attempts_install cfg n m fs hm hmark (Or.inl hv), h1, h2, ?_⟩
  exact ensure_env_skip_of_marker cfg' n m _
    (by rw [markerOf_congr cfg cfg' n hhome]; exact h1)

/-- Witness for C1 at a concrete input. -/
theorem ensure_first_installs_once_then_zero_witness :
    countInstalls (ensure_env cfgOk "a"
        (some ["m"]) ⟨[["m"]]⟩).events = 1 ∧
    countInstalls (ensure_env cfgOk "a" (some ["m"])
        (ensure_env cfgOk "a"
          (some ["m"]) ⟨[["m"]]⟩).fs).events = 0 := by
  obtain ⟨h1, _, _, h4⟩ := ensure_first_installs_once_then_zero
    cfgOk cfgOk "a" ["m"] ⟨[["m"]]⟩
    (by decide) (by decide) rfl rfl rfl
  exact ⟨h1, h4⟩

/-- C2: if the installer subprocess exits non-zero during `ensure(n, m)`,
the call fails with `dependencyInstallError`, the marker file does not
exist afterwards, and a subsequent `ensure(n, m)` call attempts
installation again (one installer invocation). -/
theorem ensure_install_failure_no_marker_then_retry (cfg cfg₂ : Config)
    (n : String) (m : Path) (fs : FS)
    (hm : fs.pathExists m = true)
    (hmark : fs.pathExists (markerOf cfg n) = false)
    (hv : cfg.venvOk = true) (hi : cfg.installExit ≠ 0)
    (hhome : cfg₂.home = cfg.home) :
    (ensure_env cfg n (some m) fs).result = .error .dependencyInstallError ∧
    (ensure_env cfg n (some m) fs).fs.pathExists (markerOf cfg n) = false ∧
    countInstalls
      (ensure_env cfg₂ n (some m) (ensure_env cfg n (some m) fs).fs).events = 1 := by
  obtain ⟨h1, h2, h3, h4⟩ := ensure_env_install_failure_effects cfg n m fs hm hmark hv hi
  refine ⟨h1, h2, ?_⟩
  exact ensure_env_attempts_install cfg₂ n m _ h3
    (by rw [markerOf_congr cfg cfg₂ n hhome]; exact h2)
    (Or.inr (by rw [envDir_congr cfg cfg₂ n hhome]; exact h4))

/-- Witness for C2 at a concrete input. -/
theorem ensure_install_failure_no_marker_then_retry_witness :
    (ensure_env cfgPipFail "a"
        (some ["m"]) ⟨[["m"]]⟩).result = .error .dependencyInstallError ∧
    countInstalls (ensure_env cfgOk "a" (some ["m"])
        (ensure_env cfgPipFail "a"
          (some ["m"]) ⟨[["m"]]⟩).fs).events = 1 := by
  obtain ⟨h1, _, h3⟩ := ensure_install_failure_no_marker_then_retry
    cfgPipFail cfgOk "a" ["m"] ⟨[["m"]]⟩
    (by decide) (by decide) rfl (by decide) rfl
  exact ⟨h1, h3⟩

/-- C3: with no manifest, a first successful `ensure(n)` call followed by a
second `ensure(n)` call is idempotent: the second call leaves the
filesystem (hence the environment directory's presence) exactly unchanged
and performs no external invocation at all. -/
theorem ensure_idempotent_without_manifest (cfg cfg₂ : Config) (n : String)
    (fs : FS) (hv : cfg.venvOk = true) (hhome : cfg₂.home = cfg.home) :
    (ensure_env cfg n none fs).result = .ok (envDir cfg n) ∧
    (ensure_env cfg₂ n none (ensure_env cfg n none fs).fs).fs
      = (ensure_env cfg n none fs).fs ∧
    (ensure_env cfg₂ n none (ensure_env cfg n none fs).fs).events = [] := by
  have h1 : (ensure_env cfg n none fs).result = .ok (envDir cfg n) := by
    by_cases he : fs.pathExists (envDir cfg n) = true
    · rw [ensure_env_of_exists cfg n none fs he, installStep_none]
    · rw [ensure_env_of_missing cfg n none fs (by simpa using he) hv, installStep_none]
  have he2 : (ensure_env cfg n none fs).fs.pathExists (envDir cfg₂ n) = true := by
    rw [envDir_congr cfg cfg₂ n hhome]
    exact ensure_env_envDir_exists cfg n none fs hv
  rw [ensure_env_of_exists cfg₂ n none _ he2, installStep_none]
  exact ⟨h1, rfl, rfl⟩

/-- Witness for C3 at a concrete input. -/
theorem ensure_idempotent_without_manifest_witness :
    (ensure_env cfgOk "a" none
        (ensure_env cfgOk "a" none ⟨[]⟩).fs).fs
      = (ensure_env cfgOk "a" none ⟨[]⟩).fs ∧
    (ensure_env cfgOk "a" none
        (ensure_env cfgOk "a" none ⟨[]⟩).fs).events = [] := by
  obtain ⟨_, h2, h3⟩ := ensure_idempotent_without_manifest
    cfgOk cfgOk "a" ⟨[]⟩ rfl rfl
  exact ⟨h2, h3⟩

/-! ### Lemmas about `run` -/

theorem run_fs_eq (cfg : Config) (agent_path : Path) (c : Option PyCommand) (fs : FS) :
    (run cfg agent_path c fs).fs =
      (ensure_env cfg (lastName agent_path)
        (some (agent_path ++ ["requirements.txt"])) fs).fs := by
  simp only [run]
  cases hr : (ensure_env cfg (lastName agent_path)
      (some (agent_path ++ ["requirements.txt"])) fs).result
  · simp [hr]
  · by_cases hae : cfg.agentExit = 0 <;> simp [hr, hae]

theorem run_of_ensure_error (cfg : Config) (agent_path : Path) (c : Option PyCommand)
    (fs : FS) (e : Err)
    (h : (ensure_env cfg (lastName agent_path)
        (some (agent_path ++ ["requirements.txt"])) fs).result = .error e) :
    (run cfg agent_path c fs).result = .error e ∧
    (run cfg agent_path c fs).events.filter isSpawnEvent = [] := by
  simp only [run]
  rw [h]
  exact ⟨rfl, ensure_env_events_filter cfg _ _ fs isSpawnEvent
    (fun _ _ => rfl) (fun _ => rfl)⟩

theorem run_events_spawn (cfg : Config) (agent_path : Path) (c : Option PyCommand)
    (fs : FS) (env : Path)
    (h : (ensure_env cfg (lastName agent_path)
        (some (agent_path ++ ["requirements.txt"])) fs).result = .ok env) :
    (run cfg agent_path c fs).events.filter isSpawnEvent =
      [Event.spawn (pathToString (pythonExecutable cfg.isWindows env)
        :: buildCmd agent_path c) agent_path] := by
  simp only [run]
  rw [h]
  have hspawn : (ensure_env cfg (lastName agent_path)
      (some (agent_path ++ ["requirements.txt"])) fs).events.filter isSpawnEvent = [] :=
    ensure_env_events_filter cfg _ _ fs isSpawnEvent (fun _ _ => rfl) (fun _ => rfl)
  by_cases hae : cfg.agentExit = 0 <;>
    simp [hae, List.filter_append, hspawn, isSpawnEvent]

theorem run_result_of_ensure_ok (cfg : Config) (agent_path : Path)
    (c : Option PyCommand) (fs : FS) (env : Path)
    (h : (ensure_env cfg (lastName agent_path)
        (some (agent_path ++ ["requirements.txt"])) fs).result = .ok env) :
    (cfg.agentExit ≠ 0 →
      (run cfg agent_path c fs).result = .error (.processExecutionError cfg.agentExit)) ∧
    (cfg.agentExit = 0 → (run cfg agent_path c fs).result =
      .ok ⟨pathToString (pythonExecutable cfg.isWindows env)
        :: buildCmd agent_path c, 0⟩) := by
  simp only [run]
  rw [h]
  constructor
  · intro hae
    simp [hae]
  · intro hae
    simp [hae]

/-- C4: for every agent directory path, `run` with no explicit command
spawns exactly one process, whose argument vector is the environment's
interpreter followed by `<agent_path>/main.py`, with working directory the
agent directory. -/
theorem run_default_spawns_main (cfg : Config) (agent_path : Path) (fs : FS)
    (hv : cfg.venvOk = true) (hi : cfg.installExit = 0) :
    (run cfg agent_path none fs).events.filter isSpawnEvent =
      [Event.spawn
        [pathToString (pythonExecutable cfg.isWindows (envDir cfg (lastName agent_path))),
         pathToString (agent_path ++ ["main.py"])] agent_path] := by
  have h := ensure_env_result_ok cfg (lastName agent_path)
    (some (agent_path ++ ["requirements.txt"])) fs hv hi
  simpa [buildCmd] using run_events_spawn cfg agent_path none fs _ h

/-- Witness for C4 at a concrete input. -/
theorem run_default_spawns_main_witness :
    (run cfgOk ["srv", "agent"] none ⟨[]⟩).events.filter
        isSpawnEvent =
      [Event.spawn
        [pathToString (pythonExecutable false
          (envDir cfgOk (lastName ["srv", "agent"]))),
         pathToString (["srv", "agent"] ++ ["main.py"])] ["srv", "agent"]] :=
  run_default_spawns_main cfgOk ["srv", "agent"] ⟨[]⟩ rfl rfl

/-- C5: when `command` is a single string or path token, the argument
vector after the interpreter is exactly that one token rendered as text
(not iterated element-wise); when `command` is a sequence, it is each
element in order coerced to text; in both cases the working directory is
the agent directory. -/
theorem run_command_argument_vector (cfg : Config) (agent_path : Path) (fs : FS)
    (hv : cfg.venvOk = true) (hi : cfg.installExit = 0) :
    (∀ v : PyValue,
      (run cfg agent_path (some (.scalar v)) fs).events.filter isSpawnEvent =
        [Event.spawn
          [pathToString (pythonExecutable cfg.isWindows (envDir cfg (lastName agent_path))),
           v.toText] agent_path]) ∧
    (∀ ts : List PyValue,
      (run cfg agent_path (some (.tokens ts)) fs).events.filter isSpawnEvent =
        [Event.spawn
          (pathToString (pythonExecutable cfg.isWindows (envDir cfg (lastName agent_path)))
            :: ts.map PyValue.toText) agent_path]) := by
  have h := ensure_env_result_ok cfg (lastName agent_path)
    (some (agent_path ++ ["requirements.txt"])) fs hv hi
  constructor
  · intro v
    simpa [buildCmd] using run_events_spawn cfg agent_path (some (.scalar v)) fs _ h
  · intro ts
    simpa [buildCmd] using run_events_spawn cfg agent_path (some (.tokens ts)) fs _ h

/-- Witness for C5: `run(agent_path, command=["a", "b"])` invokes the
interpreter with arguments `a b`, in order, working directory the agent
directory. -/
theorem run_command_argument_vector_witness :
    (run cfgOk ["srv", "agent"]
        (some (.tokens [.vstr "a", .vstr "b"])) ⟨[]⟩).events.filter isSpawnEvent =
      [Event.spawn
        (pathToString (pythonExecutable false
          (envDir cfgOk (lastName ["srv", "agent"])))
          :: [PyValue.vstr "a", PyValue.vstr "b"].map PyValue.toText) ["srv", "agent"]] :=
  (run_command_argument_vector cfgOk ["srv", "agent"] ⟨[]⟩
    rfl rfl).2 [.vstr "a", .vstr "b"]

/-- C8: `run` fails with `processExecutionError` (carrying the exit code)
exactly when the spawned process exits non-zero; an error raised by the
provisioner propagates to the caller unchanged (and nothing is spawned);
and whenever `run` returns normally the completed-process record has exit
code 0. -/
theorem run_error_propagation_and_exit_code (cfg : Config) (agent_path : Path)
    (c : Option PyCommand) (fs : FS) :
    (∀ e : Err, (ensure_env cfg (lastName agent_path)
        (some (agent_path ++ ["requirements.txt"])) fs).result = .error e →
      (run cfg agent_path c fs).result = .error e) ∧
    (∀ env : Path, (ensure_env cfg (lastName agent_path)
        (some (agent_path ++ ["requirements.txt"])) fs).result = .ok env →
      ((cfg.agentExit ≠ 0 →
        (run cfg agent_path c fs).result = .error (.processExecutionError cfg.agentExit)) ∧
       (cfg.agentExit = 0 → ∃ r : CompletedProcess,
        (run cfg agent_path c fs).result = .ok r ∧ r.returncode = 0))) ∧
    (∀ r : CompletedProcess,
      (run cfg agent_path c fs).result = .ok r → r.returncode = 0) := by
  refine ⟨fun e he => (run_of_ensure_error cfg agent_path c fs e he).1,
    fun env henv => ?_, fun r hr => ?_⟩
  · obtain ⟨h1, h2⟩ := run_result_of_ensure_ok cfg agent_path c fs env henv
    exact ⟨h1, fun hae => ⟨_, h2 hae, rfl⟩⟩
  · cases hres : (ensure_env cfg (lastName agent_path)
        (some (agent_path ++ ["requirements.txt"])) fs).result with
    | error e =>
      rw [(run_of_ensure_error cfg agent_path c fs e hres).1] at hr
      exact absurd hr (by simp)
    | ok env =>
      obtain ⟨h1, h2⟩ := run_result_of_ensure_ok cfg agent_path c fs env hres
      by_cases hae : cfg.agentExit = 0
      · rw [h2 hae] at hr
        cases hr
        rfl
      · rw [h1 hae] at hr
        exact absurd hr (by simp)

/-- Witness for C8: with a concrete agent process exiting 7, `run` fails
with `processExecutionError 7`. -/
theorem run_error_propagation_and_exit_code_witness :
    (run cfgAgentFail ["srv", "agent"] none ⟨[]⟩).result
      = .error (.processExecutionError 7) :=
  ((run_error_propagation_and_exit_code cfgAgentFail
      ["srv", "agent"] none ⟨[]⟩).2.1
    (envDir cfgAgentFail (lastName ["srv", "agent"]))
    (by decide)).1 (by decide)

/-- C10: an explicitly empty command sequence is not treated as an absent
command: `run(agent_path, command=[])` spawns the environment's interpreter
with no further arguments, while the default `main.py` argument vector
arises only from an absent (`None`) command. -/
theorem run_empty_command_spawns_interpreter_only (cfg : Config)
    (agent_path : Path) (fs : FS)
    (hv : cfg.venvOk = true) (hi : cfg.installExit = 0) :
    (run cfg agent_path (some (.tokens [])) fs).events.filter isSpawnEvent =
      [Event.spawn
        [pathToString (pythonExecutable cfg.isWindows (envDir cfg (lastName agent_path)))]
        agent_path] ∧
    buildCmd agent_path (some (.tokens [])) = [] ∧
    buildCmd agent_path none = [pathToString (agent_path ++ ["main.py"])] := by
  have h := ensure_env_result_ok cfg (lastName agent_path)
    (some (agent_path ++ ["requirements.txt"])) fs hv hi
  refine ⟨?_, rfl, rfl⟩
  simpa [buildCmd] using run_events_spawn cfg agent_path (some (.tokens [])) fs _ h

/-- Witness for C10 at a concrete input. -/
theorem run_empty_command_spawns_interpreter_only_witness :
    (run cfgOk ["srv", "agent"]
        (some (.tokens [])) ⟨[]⟩).events.filter isSpawnEvent =
      [Event.spawn
        [pathToString (pythonExecutable false
          (envDir cfgOk (lastName ["srv", "agent"])))]
        ["srv", "agent"]] :=
  (run_empty_command_spawns_interpreter_only cfgOk
    ["srv", "agent"] ⟨[]⟩ rfl rfl).1

/-- C6 counterexample: a manifest path that does not exist at call time can
still trigger an install attempt, because `requirements.exists()` is
evaluated only after `venv.create` has run.  Taking the manifest path to be
the environment directory itself (`~/.agents/a`), absent on an empty
filesystem, `ensure` creates that directory and then invokes the installer
once. -/
theorem ensure_nonexistent_manifest_counterexample :
    FS.pathExists ⟨[]⟩ ["home", ".agents", "a"] = false ∧
    countInstalls (ensure_env cfgOk "a"
      (some ["home", ".agents", "a"]) ⟨[]⟩).events = 1 := by
  decide

/-- C6 (amended): calling `ensure` with a manifest path that does not exist
on disk performs no install attempt and writes no marker — provided the
manifest path is not one of the paths the provisioning step itself can
create, i.e. it does not lie inside the environment directory (the
directory itself and everything `venv.create` writes beneath it, such as
its `bin/python`) and is not an ancestor created by the parent `mkdir`;
the environment directory is still created if missing and the environment
path is returned. -/
theorem ensure_nonexistent_manifest_no_install (cfg : Config) (n : String)
    (m : Path) (fs : FS)
    (hv : cfg.venvOk = true)
    (hm : fs.pathExists m = false)
    (hout : (envDir cfg n).isPrefixOf m = false)
    (hni : m ∉ (cfg.home ++ [".agents"]).inits) :
    countInstalls (ensure_env cfg n (some m) fs).events = 0 ∧
    (ensure_env cfg n (some m) fs).fs.pathExists (envDir cfg n) = true ∧
    (ensure_env cfg n (some m) fs).result = .ok (envDir cfg n) ∧
    (ensure_env cfg n (some m) fs).fs.pathExists (markerOf cfg n)
      = fs.pathExists (markerOf cfg n) := by
  by_cases he : fs.pathExists (envDir cfg n) = true
  · have hcond : (fs.pathExists m
        && !fs.pathExists (envDir cfg n ++ [".requirements_installed"])) = false := by
      rw [hm]; rfl
    rw [ensure_env_of_exists cfg n _ fs he, installStep_skip cfg _ m fs [] hcond]
    exact ⟨rfl, he, rfl, rfl⟩
  · rw [ensure_env_of_missing cfg n _ fs (by simpa using he) hv]
    have hm1 : (envCreateFS cfg n fs).pathExists m = false := by
      rw [pathExists_envCreateFS_outside cfg n fs m hni hout]
      exact hm
    have hcond : ((envCreateFS cfg n fs).pathExists m
        && !(envCreateFS cfg n fs).pathExists
          (envDir cfg n ++ [".requirements_installed"])) = false := by
      rw [hm1]; rfl
    rw [installStep_skip cfg _ m _ _ hcond]
    refine ⟨rfl, pathExists_envCreateFS_self cfg n fs, rfl, ?_⟩
    exact marker_pathExists_envCreateFS cfg n fs

/-- Witness for the amended C6 at a concrete input. -/
theorem ensure_nonexistent_manifest_no_install_witness :
    countInstalls (ensure_env cfgOk "a"
        (some ["srv", "agent", "requirements.txt"]) ⟨[]⟩).events = 0 ∧
    (ensure_env cfgOk "a"
        (some ["srv", "agent", "requirements.txt"]) ⟨[]⟩).fs.pathExists
      (envDir cfgOk "a") = true := by
  obtain ⟨h1, h2, _, _⟩ := ensure_nonexistent_manifest_no_install
    cfgOk "a" ["srv", "agent", "requirements.txt"] ⟨[]⟩
    rfl (by decide) (by decide) (by decide)
  exact ⟨h1, h2⟩

/-! ### Platform independence lemmas -/

theorem installStep_fs_result_indep (cfg cfg' : Config) (ed : Path)
    (r : Option Path) (fs : FS) (evs evs' : List Event)
    (hinst : cfg'.installExit = cfg.installExit) :
    (installStep cfg' ed r fs evs').fs = (installStep cfg ed r fs evs).fs ∧
    (installStep cfg' ed r fs evs').result = (installStep cfg ed r fs evs).result := by
  cases r with
  | none => rw [installStep_none, installStep_none]; exact ⟨rfl, rfl⟩
  | some req =>
    by_cases hc : (fs.pathExists req && !fs.pathExists (ed ++ [".requirements_installed"])) = true
    · by_cases hi : cfg.installExit = 0
      · rw [installStep_success cfg ed req fs evs hc hi,
          installStep_success cfg' ed req fs evs' hc (by rw [hinst]; exact hi)]
        exact ⟨rfl, rfl⟩
      · rw [installStep_failure cfg ed req fs evs hc hi,
          installStep_failure cfg' ed req fs evs' hc (by rw [hinst]; exact hi)]
        exact ⟨rfl, rfl⟩
    · rw [installStep_skip cfg ed req fs evs (by simpa using hc),
        installStep_skip cfg' ed req fs evs' (by simpa using hc)]
      exact ⟨rfl, rfl⟩

theorem envCreateFS_congr (cfg cfg' : Config) (n : String) (fs : FS)
    (hh : cfg'.home = cfg.home) (ht : cfg'.venvTree = cfg.venvTree) :
    envCreateFS cfg' n fs = envCreateFS cfg n fs := by
  unfold envCreateFS
  rw [envDir_congr cfg cfg' n hh, hh, ht]

theorem ensure_env_fs_result_indep (cfg cfg' : Config) (n : String)
    (r : Option Path) (fs : FS)
    (hh : cfg'.home = cfg.home) (hv : cfg'.venvOk = cfg.venvOk)
    (hi : cfg'.installExit = cfg.installExit)
    (ht : cfg'.venvTree = cfg.venvTree) :
    (ensure_env cfg' n r fs).fs = (ensure_env cfg n r fs).fs ∧
    (ensure_env cfg' n r fs).result = (ensure_env cfg n r fs).result := by
  have hed : envDir cfg' n = envDir cfg n := envDir_congr cfg cfg' n hh
  by_cases he : fs.pathExists (envDir cfg n) = true
  · rw [ensure_env_of_exists cfg n r fs he,
      ensure_env_of_exists cfg' n r fs (by rw [hed]; exact he), hed]
    exact installStep_fs_result_indep cfg cfg' _ r fs [] [] hi
  · by_cases hvv : cfg.venvOk = true
    · rw [ensure_env_of_missing cfg n r fs (by simpa using he) hvv,
        ensure_env_of_missing cfg' n r fs
          (by rw [hed]; simpa using he) (by rw [hv]; exact hvv),
        envCreateFS_congr cfg cfg' n fs hh ht, hed]
      exact installStep_fs_result_indep cfg cfg' _ r _ _ _ hi
    · rw [ensure_env_of_venv_failure cfg n r fs (by simpa using he) (by simpa using hvv),
        ensure_env_of_venv_failure cfg' n r fs
          (by rw [hed]; simpa using he) (by rw [hv]; simpa using hvv), hh]
      exact ⟨rfl, rfl⟩

/-- C7: the interpreter path is `<env_root>/Scripts/python.exe` on the
Windows platform family and `<env_root>/bin/python` on all others, and this
is the only platform-conditional logic: flipping the platform flag changes
neither the filesystem effects nor the outcome of `ensure_env`, nor the
filesystem effects of `run`. -/
theorem python_executable_platform_split :
    (∀ env_path : Path,
      pythonExecutable true env_path = env_path ++ ["Scripts", "python.exe"]) ∧
    (∀ env_path : Path,
      pythonExecutable false env_path = env_path ++ ["bin", "python"]) ∧
    (∀ (cfg : Config) (b : Bool) (n : String) (r : Option Path) (fs : FS),
      (ensure_env (Config.mk b cfg.home cfg.venvOk cfg.installExit cfg.agentExit
          cfg.venvTree cfg.markerNotCreated) n r fs).fs = (ensure_env cfg n r fs).fs ∧
      (ensure_env (Config.mk b cfg.home cfg.venvOk cfg.installExit cfg.agentExit
          cfg.venvTree cfg.markerNotCreated) n r fs).result
        = (ensure_env cfg n r fs).result) ∧
    (∀ (cfg : Config) (b : Bool) (ap : Path) (c : Option PyCommand) (fs : FS),
      (run (Config.mk b cfg.home cfg.venvOk cfg.installExit cfg.agentExit
          cfg.venvTree cfg.markerNotCreated) ap c fs).fs = (run cfg ap c fs).fs) := by
  refine ⟨fun _ => rfl, fun _ => rfl,
    fun cfg b n r fs => ensure_env_fs_result_indep cfg _ n r fs rfl rfl rfl rfl,
    fun cfg b ap c fs => ?_⟩
  rw [run_fs_eq, run_fs_eq]
  exact (ensure_env_fs_result_indep cfg
    (Config.mk b cfg.home cfg.venvOk cfg.installExit cfg.agentExit
      cfg.venvTree cfg.markerNotCreated)
    (lastName ap) (some (ap ++ ["requirements.txt"])) fs rfl rfl rfl rfl).1

/-- C9: existence of the environment root directory is the sole creation
signal — when it exists, `ensure` performs no environment-creation
invocation — and no operation of the system ever removes an existing path
(in particular neither the environment directory nor the marker file is
ever deleted). -/
theorem envdir_sole_signal_nothing_deleted (cfg : Config) (n : String)
    (r : Option Path) (fs : FS) :
    (fs.pathExists (envDir cfg n) = true →
      countCreates (ensure_env cfg n r fs).events = 0) ∧
    (∀ p : Path, fs.pathExists p = true →
      (ensure_env cfg n r fs).fs.pathExists p = true) ∧
    (∀ (ap : Path) (c : Option PyCommand) (p : Path), fs.pathExists p = true →
      (run cfg ap c fs).fs.pathExists p = true) := by
  refine ⟨fun he => ?_, fun p hp => ensure_env_fs_mono cfg n r fs p hp,
    fun ap c p hp => ?_⟩
  · rw [ensure_env_of_exists cfg n r fs he]
    have := installStep_events_filter cfg (envDir cfg n) r fs [] isCreateEvent
      (fun _ _ => rfl)
    rw [countCreates, this]
    rfl
  · rw [run_fs_eq]
    exact ensure_env_fs_mono cfg _ _ fs p hp

/-- Witness for C9 at a concrete input: the environment directory exists,
so no creation happens, and an existing path survives both operations. -/
theorem envdir_sole_signal_nothing_deleted_witness :
    countCreates (ensure_env cfgOk "a" none
      ⟨[["home", ".agents", "a"]]⟩).events = 0 ∧
    (ensure_env cfgOk "a" none
      ⟨[["home", ".agents", "a"]]⟩).fs.pathExists ["home", ".agents", "a"] = true ∧
    (run cfgOk ["srv", "agent"] none
      ⟨[["home", ".agents", "a"]]⟩).fs.pathExists ["home", ".agents", "a"] = true := by
  obtain ⟨h1, h2, h3⟩ := envdir_sole_signal_nothing_deleted
    cfgOk "a" none ⟨[["home", ".agents", "a"]]⟩
  exact ⟨h1 (by decide), h2 ["home", ".agents", "a"] (by decide),
    h3 ["srv", "agent"] none ["home", ".agents", "a"] (by decide)⟩

end EnvManager
